import Mathlib

/-!
Verification development for the task-master repository.

Part 1 embeds `src/ai-providers/claude-code.js` (the local Claude Code CLI
provider): prompt construction, the CLI-call outcome, the resolved value
shapes of `generateClaudeCodeText` / `streamClaudeCodeText`, and the retry
loop of `generateClaudeCodeObject`.

Part 2 models, from the specification, the unified AI service cascade
(`generateTextService` of `scripts/modules/ai-services-unified.js`, whose
implementation file is not part of the sources here; only its test suite
is): role sequence, availability gate, retry controller and fallback
sequencer, with the observable log strings the tests exercise.
-/

set_option maxRecDepth 4096

namespace TaskMaster

/-! ### String helpers

Substring containment, mirroring JavaScript `String.prototype.includes`,
implemented over character lists so that it evaluates by `decide`. -/

/-- Whether the character list `p` is a prefix of `l`. -/
def isPrefixL : List Char → List Char → Bool
  | [], _ => true
  | _ :: _, [] => false
  | a :: as, b :: bs => a == b && isPrefixL as bs

/-- Whether the character list `p` occurs (contiguously) inside `l`. -/
def containsL (p : List Char) : List Char → Bool
  | [] => isPrefixL p []
  | c :: t => isPrefixL p (c :: t) || containsL p t

/-- JavaScript `s.includes(pat)`: `pat` occurs contiguously inside `s`. -/
def containsSub (s pat : String) : Bool :=
  containsL pat.toList s.toList

theorem isPrefixL_refl (p : List Char) : isPrefixL p p = true := by
  induction p with
  | nil => rfl
  | cons a as ih => simp [isPrefixL, ih]

theorem isPrefixL_append (p l r : List Char) (h : isPrefixL p l = true) :
    isPrefixL p (l ++ r) = true := by
  induction p generalizing l with
  | nil => rfl
  | cons a as ih =>
    cases l with
    | nil => simp [isPrefixL] at h
    | cons b bs =>
      simp only [isPrefixL, Bool.and_eq_true] at h
      simp [isPrefixL, h.1, ih bs h.2]

theorem containsL_nil (l : List Char) : containsL [] l = true := by
  cases l <;> simp [containsL, isPrefixL]

theorem containsL_append_left (p l r : List Char) (h : containsL p l = true) :
    containsL p (l ++ r) = true := by
  induction l with
  | nil =>
    cases p with
    | nil => exact containsL_nil r
    | cons a as => simp [containsL, isPrefixL] at h
  | cons c t ih =>
    simp only [containsL, Bool.or_eq_true] at h ⊢
    rcases h with h | h
    · exact Or.inl (isPrefixL_append _ _ _ h)
    · exact Or.inr (ih h)

theorem containsL_suffix (l p : List Char) : containsL p (l ++ p) = true := by
  induction l with
  | nil =>
    cases p with
    | nil => rfl
    | cons a as => simp [containsL, isPrefixL_refl]
  | cons c t ih =>
    simp [containsL, ih]

theorem toList_append (a b : String) : (a ++ b).toList = a.toList ++ b.toList := by
  cases a; cases b; rfl

/-- Containment survives appending on the right. -/
theorem containsSub_append_left (a b pat : String) (h : containsSub a pat = true) :
    containsSub (a ++ b) pat = true := by
  unfold containsSub at h ⊢
  rw [toList_append]
  exact containsL_append_left _ _ _ h

/-- A string contains its own suffix. -/
theorem containsSub_suffix (a m : String) : containsSub (a ++ m) m = true := by
  unfold containsSub
  rw [toList_append]
  exact containsL_suffix _ _

/-! ### Messages and prompt construction (`claude-code.js`) -/

/-- One chat message, as the provider receives it: a role string
("system" / "user" / ...) and its content. -/
structure Message where
  role : String
  content : String
deriving DecidableEq

/-- `messages.find(msg => msg.role === 'system')?.content || ''`: content of
the first system message, with JavaScript falsiness collapsing an absent
message and an empty content to the same `""`. -/
def firstSystemContent (messages : List Message) : String :=
  match messages.find? (fun m => m.role == "system") with
  | some m => m.content
  | none => ""

/-- `messages.filter(msg => msg.role === 'user')`. -/
def userMessages (messages : List Message) : List Message :=
  messages.filter (fun m => m.role == "user")

/-- `userMessages.length === 0` negated: at least one user message. -/
def hasUserMessage (messages : List Message) : Bool :=
  !(userMessages messages).isEmpty

/-- `userMessages[userMessages.length - 1].content`: content of the most
recent user message (`""` when there is none; the code only reads it after
checking one exists). -/
def lastUserContent (messages : List Message) : String :=
  match (userMessages messages).getLast? with
  | some m => m.content
  | none => ""

/-- `systemMessage ? systemMessage + "\n\n" + userMessage : userMessage`:
the prompt content written to the CLI's stdin. The JavaScript truthiness
test means an *empty* system content drops the separator entirely. -/
def promptContent (messages : List Message) : String :=
  let sys := firstSystemContent messages
  let user := lastUserContent messages
  if sys = "" then user else sys ++ "\n\n" ++ user

/-! ### The CLI call and `generateClaudeCodeText` -/

/-- How one spawn of the Claude Code CLI behaves: the process fails to
start (`error` event), or it runs to completion with an exit code, stdout
and stderr. -/
inductive CliBehavior where
  | spawnError (message : String)
  | ran (exitCode : Int) (stdout stderr : String)
deriving DecidableEq

instance exceptDecEq {ε α : Type} [DecidableEq ε] [DecidableEq α] :
    DecidableEq (Except ε α) := fun x y =>
  match x, y with
  | .ok a, .ok b =>
    if h : a = b then .isTrue (by rw [h]) else .isFalse (by simp [h])
  | .error a, .error b =>
    if h : a = b then .isTrue (by rw [h]) else .isFalse (by simp [h])
  | .ok _, .error _ => .isFalse (by simp)
  | .error _, .ok _ => .isFalse (by simp)

/-- Observable outcome of one `generateClaudeCodeText` call: whether a CLI
process was spawned (and with which prompt on stdin), and the settled
promise (resolved text or rejection message). -/
structure TextOutcome where
  spawned : Option String
  result : Except String String
deriving DecidableEq

/-- JavaScript-style trim of ASCII whitespace, mirroring
`String.prototype.trim` on the CLI output. -/
def isWsChar (c : Char) : Bool :=
  c == ' ' || c == '\n' || c == '\t' || c == '\r'

/-- Trim whitespace from both ends of a string (models `stdout.trim()`). -/
def trimStr (s : String) : String :=
  ⟨((s.toList.dropWhile isWsChar).reverse.dropWhile isWsChar).reverse⟩

/-- How the promise settles from the spawned process's events: `resolve
stdout.trim()` when the close event carries exit code 0, otherwise the
rejection built in the close or error handler. -/
def cliResultOf : CliBehavior → Except String String
  | .spawnError m => .error ("Failed to execute Claude Code CLI: " ++ m)
  | .ran code stdout stderr =>
    match code == 0 with
    | true => .ok (trimStr stdout)
    | false =>
      .error ("Claude Code CLI failed with code " ++ toString code ++ ": " ++ stderr)

/-- `generateClaudeCodeText` of `claude-code.js`: throws before spawning
when no user message exists; otherwise spawns the CLI with the combined
prompt on stdin and settles from the close/error events. `cli` maps the
prompt content fed to stdin to the process behavior. -/
def claudeTextRun (messages : List Message) (cli : String → CliBehavior) :
    TextOutcome :=
  match hasUserMessage messages with
  | false => ⟨none, .error "At least one user message is required"⟩
  | true =>
    ⟨some (promptContent messages), cliResultOf (cli (promptContent messages))⟩

/-! ### Resolved value shapes (`generateClaudeCodeText` / `streamClaudeCodeText`) -/

/-- A JavaScript value, as far as the provider's return shapes need:
strings, numbers, objects with ordered string-keyed fields, and the opaque
`ReadableStream` the stream call builds. -/
inductive JsValue where
  | str (s : String)
  | num (n : Int)
  | obj (fields : List (String × JsValue))
  | stream

/-- Field names of an object value (empty for non-objects). -/
def fieldNames : JsValue → List String
  | .obj fs => fs.map Prod.fst
  | _ => []

/-- Field lookup on an object value. -/
def getField (v : JsValue) (k : String) : Option JsValue :=
  match v with
  | .obj fs => (fs.find? (fun f => f.1 == k)).map Prod.snd
  | _ => none

/-- Whether a value is an object exposing both a `text` and a `usage`
field — the normalized generation-result shape the claim describes. -/
def hasTextUsageShape (v : JsValue) : Bool :=
  match v with
  | .obj fs => fs.any (fun f => f.1 == "text") && fs.any (fun f => f.1 == "usage")
  | _ => false

/-- The value `generateClaudeCodeText` resolves with: in the source it is
`resolve(stdout.trim())` — a bare string, not an object. -/
def generateClaudeCodeTextValue (messages : List Message)
    (cli : String → CliBehavior) : Except String JsValue :=
  match (claudeTextRun messages cli).result with
  | .ok t => .ok (.str t)
  | .error e => .error e

/-- The value `streamClaudeCodeText` resolves with: the object literal of
the source, with `usage: { promptTokens: 0, completionTokens: 0 }`. -/
def streamClaudeCodeTextValue (messages : List Message)
    (cli : String → CliBehavior) : Except String JsValue :=
  match (claudeTextRun messages cli).result with
  | .ok t =>
    .ok (.obj [("textStream", .stream), ("text", .str t),
      ("usage", .obj [("promptTokens", .num 0), ("completionTokens", .num 0)])])
  | .error e => .error e

/-- The key list of the `usage` field of a successful stream result. -/
def streamUsageKeys (messages : List Message) (cli : String → CliBehavior) :
    Option (List String) :=
  match streamClaudeCodeTextValue messages cli with
  | .ok v => (getField v "usage").map fieldNames
  | .error _ => none

/-! ### Structured object generation (`generateClaudeCodeObject`) -/

/-- The semantic outcome of one attempt of the `generateClaudeCodeObject`
loop body, before the catch-clause classifies it by message:

* `execError m` — the inner `generateClaudeCodeText` call rejected with
  message `m` (a transport/execution failure);
* `noJsonObject` — both whole-response `JSON.parse` and the
  brace-extraction regex failed, so the body threw the fixed internal
  message;
* `parseError m` — `JSON.parse` threw with message `m`;
* `validationError m` — `schema.parse` (schema validation) threw with
  message `m`;
* `ok o` — the validated object (abstracted as its rendering `o`). -/
inductive Attempt where
  | execError (message : String)
  | noJsonObject
  | parseError (message : String)
  | validationError (message : String)
  | ok (object : String)
deriving DecidableEq

/-- What the try-block of the loop body produces: the validated object, or
the thrown error's message. -/
def attemptResult : Attempt → Except String String
  | .execError m => .error m
  | .noJsonObject => .error "Response did not contain valid JSON object"
  | .parseError m => .error m
  | .validationError m => .error m
  | .ok o => .ok o

/-- Whether an attempt threw (any catch-clause entry). -/
def attemptFails (a : Attempt) : Bool :=
  match attemptResult a with
  | .error _ => true
  | .ok _ => false

/-- The message the catch clause sees for a failing attempt. -/
def attemptMessage (a : Attempt) : String :=
  match attemptResult a with
  | .error m => m
  | .ok _ => ""

/-- Whether an attempt was a schema-validation failure. -/
def isValidationFailure : Attempt → Bool
  | .validationError _ => true
  | _ => false

/-- Whether an attempt was a transport/execution failure of the inner
generation call. -/
def isExecFailure : Attempt → Bool
  | .execError _ => true
  | _ => false

/-- The catch clause's retry test:
`error.message.includes('JSON') || error.message.includes('schema')`. -/
def isContentRetryable (m : String) : Bool :=
  containsSub m "JSON" || containsSub m "schema"

/-- `Failed to generate valid object after N attempts: <last message>` —
the error thrown when the `while` loop exhausts `maxRetries`. (With
`maxRetries = 0` the JavaScript would crash dereferencing a null
`lastError`; that unreachable-for-the-claims corner is rendered "null".) -/
def objExhaustMessage (maxRetries : Nat) (last : Option String) : String :=
  "Failed to generate valid object after " ++ Nat.repr maxRetries ++ " attempts: " ++
    (match last with
     | some m => m
     | none => "null")

/-- Number of generation calls issued and the settled promise of one
`generateClaudeCodeObject` call. -/
structure ObjRun where
  calls : Nat
  result : Except String String
deriving DecidableEq

/-- The `while (attempts < maxRetries)` loop of `generateClaudeCodeObject`,
with `fuel` the remaining iterations and `i` the index of the next attempt:
a successful attempt returns its object; a failing attempt records its
message as `lastError`, then `continue`s when the message matches the
content-error test and rethrows immediately otherwise; an exhausted budget
throws the aggregate message. -/
def objLoop (att : Nat → Attempt) (maxRetries : Nat) :
    Nat → Nat → Option String → ObjRun
  | 0, _, last => ⟨0, .error (objExhaustMessage maxRetries last)⟩
  | fuel + 1, i, _ =>
    match attemptResult (att i) with
    | .ok o => ⟨1, .ok o⟩
    | .error m =>
      if isContentRetryable m then
        let r := objLoop att maxRetries fuel (i + 1) (some m)
        ⟨r.calls + 1, r.result⟩
      else
        ⟨1, .error m⟩

/-- `generateClaudeCodeObject` of `claude-code.js`, abstracted over the
per-attempt outcomes `att` (attempt `i` is the `i`-th full re-issued
generation call): the retry loop with the default budget
`maxRetries = 3`. -/
def generateClaudeCodeObjectRun (att : Nat → Attempt)
    (maxRetries : Nat := 3) : ObjRun :=
  objLoop att maxRetries maxRetries 0 none

/-- Unfolding of one loop iteration. -/
theorem objLoop_step (att : Nat → Attempt) (mr fuel i : Nat) (last : Option String) :
    objLoop att mr (fuel + 1) i last =
      (match attemptResult (att i) with
       | .ok o => ⟨1, .ok o⟩
       | .error m =>
         if isContentRetryable m then
           let r := objLoop att mr fuel (i + 1) (some m)
           ⟨r.calls + 1, r.result⟩
         else ⟨1, .error m⟩) := rfl

/-- A failing attempt's result is the error of its message. -/
theorem attemptResult_of_fails (a : Attempt) (h : attemptFails a = true) :
    attemptResult a = .error (attemptMessage a) := by
  cases a <;> simp [attemptResult, attemptFails, attemptMessage] at *

/-- Strings with different first characters differ. -/
theorem string_ne_of_head {s t : String} (h : s.toList.head? ≠ t.toList.head?) :
    s ≠ t :=
  fun he => h (by rw [he])

theorem head?_append_of_ne_nil {α : Type} (l₁ l₂ : List α) (h : l₁ ≠ []) :
    (l₁ ++ l₂).head? = l₁.head? := by
  cases l₁ with
  | nil => exact absurd rfl h
  | cons a t => rfl

/-- A string starting with a fixed nonempty prefix differs from any string
with a different first character. -/
theorem string_prefix_ne (p m t : String) (hp : p.toList ≠ [])
    (h : p.toList.head? ≠ t.toList.head?) : p ++ m ≠ t := by
  intro he
  apply h
  rw [← he, toList_append, head?_append_of_ne_nil _ _ hp]

theorem strAppend_assoc (a b c : String) : a ++ b ++ c = a ++ (b ++ c) := by
  cases a
  cases b
  cases c
  exact congrArg String.mk (List.append_assoc _ _ _)

/-- No CLI outcome can settle with the missing-user-message rejection: the
two rejection texts built after a spawn start with different characters. -/
theorem cliResultOf_ne_userError (b : CliBehavior) :
    cliResultOf b ≠ .error "At least one user message is required" := by
  intro he
  cases b with
  | spawnError m =>
    simp only [cliResultOf] at he
    have h2 := Except.error.inj he
    exact string_prefix_ne "Failed to execute Claude Code CLI: " m
      "At least one user message is required" (by decide) (by decide) h2
  | ran code stdout stderr =>
    simp only [cliResultOf] at he
    revert he
    cases code == 0 with
    | true => intro he; simp at he
    | false =>
      intro he
      simp only at he
      have h2 := Except.error.inj he
      rw [strAppend_assoc, strAppend_assoc] at h2
      exact string_prefix_ne "Claude Code CLI failed with code "
        (toString code ++ (": " ++ stderr))
        "At least one user message is required" (by decide) (by decide) h2

/-! ## Claims C6–C10: the claude-code provider -/

/-- Concrete input for the C6 counterexample: one user message, CLI exits 0
with padded stdout. -/
def c6Msgs : List Message := [⟨"user", "Test"⟩]

/-- Concrete CLI behavior for the C6 counterexample. -/
def c6Cli : String → CliBehavior := fun _ => .ran 0 " hello " ""

/-- Claim C6 is false on the code: a successful `generateClaudeCodeText`
call resolves with the bare trimmed stdout string, not an object with
`text` and `usage` fields, and a successful `streamClaudeCodeText` call
carries a usage record keyed `promptTokens`/`completionTokens`, not
`inputTokens`/`outputTokens`/`totalTokens`. -/
theorem claim_C6_counterexample :
    generateClaudeCodeTextValue c6Msgs c6Cli = .ok (.str "hello") ∧
    hasTextUsageShape (.str "hello") = false ∧
    streamUsageKeys c6Msgs c6Cli = some ["promptTokens", "completionTokens"] ∧
    (["promptTokens", "completionTokens"] : List String)
      ≠ ["inputTokens", "outputTokens", "totalTokens"] :=
  ⟨rfl, rfl, by decide, by decide⟩

/-- Claim C6, amended: every successful text-generation call of the
claude-code provider resolves with a bare string (never a `{text, usage}`
object), and every successful stream call's usage record has exactly the
keys `promptTokens` and `completionTokens`. -/
theorem claim_C6_amended (messages : List Message) (cli : String → CliBehavior) :
    (∀ v, generateClaudeCodeTextValue messages cli = .ok v →
      (∃ s, v = .str s) ∧ hasTextUsageShape v = false) ∧
    (∀ v, streamClaudeCodeTextValue messages cli = .ok v →
      (getField v "usage").map fieldNames
        = some ["promptTokens", "completionTokens"]) := by
  constructor
  · intro v hv
    unfold generateClaudeCodeTextValue at hv
    cases h : (claudeTextRun messages cli).result with
    | ok t =>
      rw [h] at hv
      cases hv
      exact ⟨⟨t, rfl⟩, rfl⟩
    | error e => rw [h] at hv; cases hv
  · intro v hv
    unfold streamClaudeCodeTextValue at hv
    cases h : (claudeTextRun messages cli).result with
    | ok t =>
      rw [h] at hv
      cases hv
      rfl
    | error e => rw [h] at hv; cases hv

/-- Witness for C6 (amended): instantiation at the concrete run. -/
theorem claim_C6_amended_witness :
    ((∃ s, JsValue.str "hello" = JsValue.str s) ∧
      hasTextUsageShape (.str "hello") = false) ∧
    (getField
        (.obj [("textStream", .stream), ("text", .str "hello"),
          ("usage", .obj [("promptTokens", .num 0), ("completionTokens", .num 0)])])
        "usage").map fieldNames = some ["promptTokens", "completionTokens"] :=
  ⟨(claim_C6_amended c6Msgs c6Cli).1 (.str "hello") rfl,
   (claim_C6_amended c6Msgs c6Cli).2
     (.obj [("textStream", .stream), ("text", .str "hello"),
       ("usage", .obj [("promptTokens", .num 0), ("completionTokens", .num 0)])])
     rfl⟩

/-- Attempt trace for the C7 counterexample: the first generation's parsed
object fails schema validation with a realistic validator message that
mentions neither "JSON" nor "schema"; a second attempt would succeed. -/
def c7Att : Nat → Attempt := fun i =>
  if i = 0 then .validationError "Expected string, received number" else .ok "obj"

/-- Claim C7 is false on the code: a schema-validation failure whose
message contains neither "JSON" nor "schema" is *not* retried — the call
throws it on the first attempt (one generation call, although the retry
budget is 3 and a second attempt would have validated). -/
theorem claim_C7_counterexample :
    isValidationFailure (c7Att 0) = true ∧
    attemptResult (c7Att 1) = .ok "obj" ∧
    generateClaudeCodeObjectRun c7Att 3
      = ⟨1, .error "Expected string, received number"⟩ :=
  ⟨rfl, rfl, by decide⟩

/-- Claim C7, amended: every failing attempt whose error message contains
"JSON" or "schema" (the code's content-error test, which covers its own
"Response did not contain valid JSON object" error) is retried by
re-issuing the full generation call, up to 3 total attempts by default;
when the budget is exhausted the call throws an error naming the attempt
count and the last underlying error message. -/
theorem claim_C7_amended (att : Nat → Attempt) :
    ((∀ i, i < 3 → attemptFails (att i) = true ∧
        isContentRetryable (attemptMessage (att i)) = true) →
      generateClaudeCodeObjectRun att 3 =
        ⟨3, .error ("Failed to generate valid object after 3 attempts: "
          ++ attemptMessage (att 2))⟩) ∧
    (∀ o, attemptFails (att 0) = true →
      isContentRetryable (attemptMessage (att 0)) = true →
      attemptResult (att 1) = .ok o →
      generateClaudeCodeObjectRun att 3 = ⟨2, .ok o⟩) := by
  constructor
  · intro h
    have h0 := h 0 (by decide)
    have h1 := h 1 (by decide)
    have h2 := h 2 (by decide)
    have e0 := attemptResult_of_fails _ h0.1
    have e1 := attemptResult_of_fails _ h1.1
    have e2 := attemptResult_of_fails _ h2.1
    show objLoop att 3 (2 + 1) 0 none = _
    rw [objLoop_step, e0]
    simp only [h0.2, if_true]
    show (⟨(objLoop att 3 (1 + 1) 1 (some (attemptMessage (att 0)))).calls + 1,
      (objLoop att 3 (1 + 1) 1 (some (attemptMessage (att 0)))).result⟩ : ObjRun) = _
    rw [objLoop_step, e1]
    simp only [h1.2, if_true]
    rw [objLoop_step, e2]
    simp only [h2.2, if_true]
    rfl
  · intro o hf hr hok
    have e0 := attemptResult_of_fails _ hf
    show objLoop att 3 (2 + 1) 0 none = _
    rw [objLoop_step, e0]
    simp only [hr, if_true]
    rw [objLoop_step, hok]

/-- Witness for C7 (amended): both conjuncts at concrete attempt traces. -/
theorem claim_C7_amended_witness :
    generateClaudeCodeObjectRun
        (fun _ => .parseError "Unexpected token x in JSON at position 0") 3
      = ⟨3, .error ("Failed to generate valid object after 3 attempts: "
          ++ attemptMessage (.parseError "Unexpected token x in JSON at position 0"))⟩ ∧
    generateClaudeCodeObjectRun
        (fun i => if i = 0 then .noJsonObject else .ok "obj") 3
      = ⟨2, .ok "obj"⟩ :=
  ⟨(claim_C7_amended (fun _ => .parseError "Unexpected token x in JSON at position 0")).1
      (fun i _ => ⟨rfl, by decide⟩),
   (claim_C7_amended (fun i => if i = 0 then .noJsonObject else .ok "obj")).2
      "obj" rfl (by decide) rfl⟩

/-- Attempt trace for the C8 counterexample: the inner generation call
itself rejects (a transport/execution failure) with a CLI stderr that
happens to mention "JSON". -/
def c8Att : Nat → Attempt := fun i =>
  if i = 0 then
    .execError "Claude Code CLI failed with code 1: JSON parse daemon crashed"
  else .ok "obj"

/-- Claim C8 is false on the code: a transport/execution failure whose
message happens to contain "JSON" does *not* propagate immediately — the
call is retried and a second generation call is issued. -/
theorem claim_C8_counterexample :
    isExecFailure (c8Att 0) = true ∧
    generateClaudeCodeObjectRun c8Att 3 = ⟨2, .ok "obj"⟩ :=
  ⟨rfl, by decide⟩

/-- Claim C8, amended: every error whose message contains neither "JSON"
nor "schema" — whatever its origin — propagates to the caller immediately
on the attempt in which it occurred, with exactly one generation call
issued and no retry; transport failures are only guaranteed immediate
propagation under that message condition. -/
theorem claim_C8_amended (att : Nat → Attempt) (m : String)
    (hf : attemptFails (att 0) = true)
    (hm : attemptMessage (att 0) = m)
    (hn : isContentRetryable m = false) :
    generateClaudeCodeObjectRun att 3 = ⟨1, .error m⟩ := by
  have e0 := attemptResult_of_fails _ hf
  rw [hm] at e0
  show objLoop att 3 (2 + 1) 0 none = _
  rw [objLoop_step, e0]
  simp [hn]

/-- Witness for C8 (amended): a non-matching execution failure propagates
at once. -/
theorem claim_C8_amended_witness :
    generateClaudeCodeObjectRun (fun _ => .execError "connection reset") 3
      = ⟨1, .error "connection reset"⟩ :=
  claim_C8_amended (fun _ => .execError "connection reset")
    "connection reset" rfl rfl (by decide)

/-- Claim C9: with no user message, `generateClaudeCodeText` rejects with
exactly "At least one user message is required" and no CLI process is
spawned; with at least one user message the CLI is always spawned and
that rejection can never be produced. -/
theorem claim_C9 (messages : List Message) (cli : String → CliBehavior) :
    (hasUserMessage messages = false →
      claudeTextRun messages cli
        = ⟨none, .error "At least one user message is required"⟩) ∧
    (hasUserMessage messages = true →
      (claudeTextRun messages cli).spawned = some (promptContent messages) ∧
      (claudeTextRun messages cli).result
        ≠ .error "At least one user message is required") := by
  constructor
  · intro h
    unfold claudeTextRun
    rw [h]
  · intro h
    unfold claudeTextRun
    rw [h]
    exact ⟨rfl, cliResultOf_ne_userError _⟩

/-- Witness for C9: both directions at concrete inputs. -/
theorem claim_C9_witness :
    claudeTextRun [⟨"system", "sys"⟩] c6Cli
      = ⟨none, .error "At least one user message is required"⟩ ∧
    (claudeTextRun [⟨"user", "hi"⟩] c6Cli).spawned
      = some (promptContent [⟨"user", "hi"⟩]) :=
  ⟨(claim_C9 [⟨"system", "sys"⟩] c6Cli).1 rfl,
   ((claim_C9 [⟨"user", "hi"⟩] c6Cli).2 rfl).1⟩

/-- The prompt as claim C10 states it: the system message content (if a
system message exists, whatever its content) joined by a blank line to the
most recent user message's content. -/
def promptContentClaimed (messages : List Message) : String :=
  match messages.find? (fun m => m.role == "system") with
  | some m => m.content ++ "\n\n" ++ lastUserContent messages
  | none => lastUserContent messages

/-- The prompt as the amended claim C10 states it: the separator (and the
system part) appears only when the first system message's content is
nonempty, because the source tests JavaScript truthiness of the content
string, not existence of the message. -/
def promptContentAmendedClaim (messages : List Message) : String :=
  if firstSystemContent messages = "" then lastUserContent messages
  else firstSystemContent messages ++ "\n\n" ++ lastUserContent messages

/-- Concrete input for the C10 counterexample: a present-but-empty system
message and one user message. -/
def c10Msgs : List Message := [⟨"system", ""⟩, ⟨"user", "hi"⟩]

/-- Claim C10 is false on the code: with a system message whose content is
empty, the claim's prompt would be `"\n\nhi"`, but the code sends `"hi"`
to the CLI (the truthiness test drops the separator). -/
theorem claim_C10_counterexample :
    hasUserMessage c10Msgs = true ∧
    (claudeTextRun c10Msgs c6Cli).spawned = some "hi" ∧
    promptContentClaimed c10Msgs = "\n\nhi" ∧
    ("hi" : String) ≠ "\n\nhi" :=
  ⟨rfl, by decide, by decide, by decide⟩

/-- Claim C10, amended: for every messages list with at least one user
message, the prompt sent to the CLI is the first system message's content
joined by a blank line to the last user message's content when that system
content is nonempty, and the last user message's content alone otherwise;
the prompt depends on nothing else (earlier user messages are ignored). -/
theorem claim_C10_amended (messages : List Message) (cli : String → CliBehavior)
    (h : hasUserMessage messages = true) :
    (claudeTextRun messages cli).spawned = some (promptContentAmendedClaim messages) ∧
    (∀ other : List Message,
      firstSystemContent other = firstSystemContent messages →
      lastUserContent other = lastUserContent messages →
      promptContent other = promptContent messages) := by
  have hpc : promptContentAmendedClaim messages = promptContent messages := by
    unfold promptContentAmendedClaim promptContent
    rfl
  constructor
  · rw [hpc]
    unfold claudeTextRun
    rw [h]
  · intro other h1 h2
    unfold promptContent
    rw [h1, h2]

/-- Witness for C10 (amended): concrete run with a nonempty system message
and two user messages, showing the earlier user message is dropped. -/
theorem claim_C10_amended_witness :
    (claudeTextRun [⟨"system", "sys"⟩, ⟨"user", "one"⟩, ⟨"user", "two"⟩] c6Cli).spawned
      = some (promptContentAmendedClaim
          [⟨"system", "sys"⟩, ⟨"user", "one"⟩, ⟨"user", "two"⟩]) ∧
    promptContent [⟨"system", "sys"⟩, ⟨"user", "ignored"⟩, ⟨"user", "two"⟩]
      = promptContent [⟨"system", "sys"⟩, ⟨"user", "one"⟩, ⟨"user", "two"⟩] :=
  ⟨(claim_C10_amended [⟨"system", "sys"⟩, ⟨"user", "one"⟩, ⟨"user", "two"⟩] c6Cli rfl).1,
   (claim_C10_amended [⟨"system", "sys"⟩, ⟨"user", "one"⟩, ⟨"user", "two"⟩] c6Cli rfl).2
     [⟨"system", "sys"⟩, ⟨"user", "ignored"⟩, ⟨"user", "two"⟩] rfl rfl⟩

/-! ## The unified AI service cascade

`generateTextService` lives in `scripts/modules/ai-services-unified.js`,
which is not among the sources; only its test suite is. The definitions
below are therefore modelled from the specification (§4.1 Role Resolver &
Availability Gate, §4.2 Fallback Sequencer, §4.3 Retry Controller, §6
logging contract), with the observable log strings the test suite
exercises. -/

/-- Modelled from the spec: the closed role enum of the missing
`ai-services-unified.js` (§3 Data model). -/
inductive Role where
  | main
  | fallback
  | research
deriving DecidableEq

/-- The role's name as it appears in log and error strings. -/
def roleName : Role → String
  | .main => "main"
  | .fallback => "fallback"
  | .research => "research"

/-- Position of a role in the canonical cascade ordering. -/
def roleIdx : Role → Nat
  | .main => 0
  | .fallback => 1
  | .research => 2

/-- Modelled from the spec: the fixed cascade order `[main, fallback,
research]` for a "main" request; any other request role walks the
remainder of the same fixed list starting at its own position (§4.2). -/
def roleSequence : Role → List Role
  | .main => [.main, .fallback, .research]
  | .fallback => [.fallback, .research]
  | .research => [.research]

/-- Modelled from the spec: the providers flagged "local, no credential
required" — the claude-code CLI provider and the local ollama runner
(§4.1, and the test suite's special cases). -/
def credentialFreeProviders : List String := ["claude-code", "ollama"]

/-- Whether a provider must pass the credential-presence check. -/
def requiresCredential (p : String) : Bool :=
  !(credentialFreeProviders.contains p)

/-- Outcome of one call to a role's provider: a resolved generation result
(abstracted as its text) or a rejection carrying the retryable
classification the Retry Controller derives from it and its message. -/
inductive AttemptOutcome where
  | success (text : String)
  | failure (retryable : Bool) (message : String)
deriving DecidableEq

/-- The external collaborators of one `generateTextService` call: the
role-keyed provider configuration, the credential-presence predicate
`isApiKeySet`, and how each role's provider behaves on its `n`-th call
within this service call. -/
structure Env where
  provider : Role → Option String
  apiKeySet : String → Bool
  outcomes : Role → Nat → AttemptOutcome

/-- Log levels of the logging sink (§6). -/
inductive Level where
  | info
  | warn
  | error
  | debug
deriving DecidableEq

/-- One leveled log line. -/
structure LogEntry where
  level : Level
  message : String
deriving DecidableEq

/-- One provider invocation: which role's provider and which attempt
(0 = initial call, 1 = first retry, ...). -/
structure CallRecord where
  role : Role
  attempt : Nat
deriving DecidableEq

/-- Everything observable about one `generateTextService` call: the
settled promise (aggregate error message, or the successful role and its
text), the provider invocations in order, the providers for which the
credential-presence predicate was queried, and the log lines. -/
structure ServiceResult where
  outcome : Except String (Role × String)
  calls : List CallRecord
  keyChecks : List String
  logs : List LogEntry
deriving DecidableEq

/-- Modelled from the spec: the fixed retry budget — "one retry after the
first failure" (§4.3, observed default). -/
def retryBudget : Nat := 1

/-- The info log line emitted before each retry (§4.3; the test suite
matches the prefix "Retryable error detected. Retrying"). -/
def retryLogMessage : String := "Retryable error detected. Retrying..."

/-- The warning logged when a role is skipped for a missing credential, in
the exact form the test suite asserts. -/
def skipMessage (r : Role) (p : String) : String :=
  "Skipping role '" ++ roleName r ++ "' (Provider: " ++ p
    ++ "): API key not set or invalid."

/-- The warning logged when a role has no provider configured. -/
def noProviderMessage (r : Role) : String :=
  "Skipping role '" ++ roleName r ++ "': no provider configured."

/-- The info log opening each role's attempt (test suite: "New AI service
call with role: <role>"). -/
def newCallMessage (r : Role) : String :=
  "New AI service call with role: " ++ roleName r

/-- The error logged when a role's final attempt fails (test suite:
"Service call failed for role <role>"). -/
def failMessage (r : Role) (m : String) : String :=
  "Service call failed for role " ++ roleName r ++ ": " ++ m

/-- Rendering of a role list inside log and error strings. -/
def renderRoles (rs : List Role) : String :=
  "[" ++ String.intercalate ", " (rs.map roleName) ++ "]"

/-- Modelled from the spec: the single aggregate failure raised when the
sequence is exhausted, naming every role attempted and the final
underlying error message (§4.2; the test suite matches the prefix "AI
service call failed for all configured roles"). -/
def exhaustMessage (rs : List Role) (last : Option String) : String :=
  "AI service call failed for all configured roles in the sequence "
    ++ renderRoles rs ++ "."
    ++ (match last with
        | some m => " Last error: " ++ m
        | none => "")

/-- The error logged at exhaustion (test suite: "All roles in the sequence
[main, fallback, research] failed."). -/
def exhaustLogMessage (rs : List Role) : String :=
  "All roles in the sequence " ++ renderRoles rs ++ " failed."

/-- Result of the Retry Controller on one role: the attempt indices
called, the retry log lines, and the final outcome. -/
structure RoleAttemptResult where
  calls : List Nat
  logs : List LogEntry
  final : AttemptOutcome
deriving DecidableEq

/-- Modelled from the spec: the Retry Controller (§4.3). `out` gives the
provider's outcome per attempt, the first argument the remaining retry
budget and `i` the current attempt index: a success returns at once; a
retryable failure with budget left logs the retry line and re-invokes the
same role's call; any other failure (non-retryable, or budget exhausted)
is final. -/
def runAttempts (out : Nat → AttemptOutcome) : Nat → Nat → RoleAttemptResult
  | 0, i =>
    match out i with
    | .success t => ⟨[i], [], .success t⟩
    | .failure rb m => ⟨[i], [], .failure rb m⟩
  | b + 1, i =>
    match out i with
    | .success t => ⟨[i], [], .success t⟩
    | .failure true _ =>
      let r := runAttempts out b (i + 1)
      ⟨i :: r.calls, ⟨.info, retryLogMessage⟩ :: r.logs, r.final⟩
    | .failure false m => ⟨[i], [], .failure false m⟩

/-- Modelled from the spec: the Fallback Sequencer walking the remaining
role list (§4.2). `all` is the full sequence of this call (for the
aggregate error message), `last` the most recent underlying failure
message. Per role: resolve the provider (skip + warn when none), pass the
Availability Gate (credential-free providers bypass the credential check
entirely; others query `isApiKeySet` and skip + warn on false), then run
the Retry Controller; return immediately on success, log the role failure
and advance otherwise; raise the aggregate failure when exhausted. -/
def runSequence (env : Env) (all : List Role) :
    List Role → Option String → ServiceResult
  | [], last =>
    ⟨.error (exhaustMessage all last), [], [],
      [⟨.error, exhaustLogMessage all⟩]⟩
  | r :: rest, last =>
    match env.provider r with
    | none =>
      let res := runSequence env all rest last
      { res with logs := ⟨.warn, noProviderMessage r⟩ :: res.logs }
    | some p =>
      match requiresCredential p with
      | true =>
        match env.apiKeySet p with
        | false =>
          let res := runSequence env all rest last
          ⟨res.outcome, res.calls, p :: res.keyChecks,
            ⟨.warn, skipMessage r p⟩ :: res.logs⟩
        | true =>
          let a := runAttempts (env.outcomes r) retryBudget 0
          match a.final with
          | .success t =>
            ⟨.ok (r, t), a.calls.map (fun i => ⟨r, i⟩), [p],
              ⟨.info, newCallMessage r⟩ :: a.logs⟩
          | .failure _ m =>
            let res := runSequence env all rest (some m)
            ⟨res.outcome,
              a.calls.map (fun i => ⟨r, i⟩) ++ res.calls,
              p :: res.keyChecks,
              ⟨.info, newCallMessage r⟩ :: (a.logs
                ++ (⟨.error, failMessage r m⟩ :: res.logs))⟩
      | false =>
        let a := runAttempts (env.outcomes r) retryBudget 0
        match a.final with
        | .success t =>
          ⟨.ok (r, t), a.calls.map (fun i => ⟨r, i⟩), [],
            ⟨.info, newCallMessage r⟩ :: a.logs⟩
        | .failure _ m =>
          let res := runSequence env all rest (some m)
          ⟨res.outcome,
            a.calls.map (fun i => ⟨r, i⟩) ++ res.calls,
            res.keyChecks,
            ⟨.info, newCallMessage r⟩ :: (a.logs
              ++ (⟨.error, failMessage r m⟩ :: res.logs))⟩

/-- Modelled from the spec: `generateTextService` of the missing
`scripts/modules/ai-services-unified.js` — one outer call for a request
role, driving the fixed cascade. -/
def generateTextService (env : Env) (role : Role) : ServiceResult :=
  runSequence env (roleSequence role) (roleSequence role) none

/-- The call records one attempted role contributes. -/
def attemptCalls (env : Env) (r : Role) : List CallRecord :=
  (runAttempts (env.outcomes r) retryBudget 0).calls.map (fun i => ⟨r, i⟩)

/-- The call records of a list of attempted roles, in order. -/
def callsForRoles (env : Env) : List Role → List CallRecord
  | [] => []
  | r :: rest => attemptCalls env r ++ callsForRoles env rest

/-- Whether an outcome is a success. -/
def finalIsSuccess : AttemptOutcome → Bool
  | .success _ => true
  | .failure _ _ => false

/-- Whether a role, attempted in isolation, ends in a success (provider
configured, gate passed, retries reach a success). -/
def roleSucceeds (env : Env) (r : Role) : Bool :=
  match env.provider r with
  | none => false
  | some p =>
    match requiresCredential p with
    | true =>
      match env.apiKeySet p with
      | false => false
      | true => finalIsSuccess (runAttempts (env.outcomes r) retryBudget 0).final
    | false => finalIsSuccess (runAttempts (env.outcomes r) retryBudget 0).final

/-- The failure message a role contributes to the threaded last-error
(`none` when the role is skipped or succeeds). -/
def roleFinalFailure (env : Env) (r : Role) : Option String :=
  match env.provider r with
  | none => none
  | some p =>
    match requiresCredential p with
    | true =>
      match env.apiKeySet p with
      | false => none
      | true =>
        match (runAttempts (env.outcomes r) retryBudget 0).final with
        | .success _ => none
        | .failure _ m => some m
    | false =>
      match (runAttempts (env.outcomes r) retryBudget 0).final with
      | .success _ => none
      | .failure _ m => some m

/-- The last underlying failure message after walking a role list. -/
def lastFailure (env : Env) : List Role → Option String → Option String
  | [], last => last
  | r :: rest, last =>
    lastFailure env rest
      (match roleFinalFailure env r with
       | some m => some m
       | none => last)

/-! ### Evaluation lemmas for the Retry Controller -/

theorem runAttempts_zero (out : Nat → AttemptOutcome) (i : Nat) :
    runAttempts out 0 i =
      (match out i with
       | .success t => ⟨[i], [], .success t⟩
       | .failure rb m => ⟨[i], [], .failure rb m⟩) := rfl

theorem runAttempts_succ (out : Nat → AttemptOutcome) (b i : Nat) :
    runAttempts out (b + 1) i =
      (match out i with
       | .success t => ⟨[i], [], .success t⟩
       | .failure true _ =>
         ⟨i :: (runAttempts out b (i + 1)).calls,
          ⟨.info, retryLogMessage⟩ :: (runAttempts out b (i + 1)).logs,
          (runAttempts out b (i + 1)).final⟩
       | .failure false m => ⟨[i], [], .failure false m⟩) := rfl

theorem runAttempts_eq_success (out : Nat → AttemptOutcome) (b i : Nat)
    (t : String) (ho : out i = .success t) :
    runAttempts out b i = ⟨[i], [], .success t⟩ := by
  cases b with
  | zero => rw [runAttempts_zero, ho]
  | succ b => rw [runAttempts_succ, ho]

theorem runAttempts_eq_fail_false (out : Nat → AttemptOutcome) (b i : Nat)
    (m : String) (ho : out i = .failure false m) :
    runAttempts out b i = ⟨[i], [], .failure false m⟩ := by
  cases b with
  | zero => rw [runAttempts_zero, ho]
  | succ b => rw [runAttempts_succ, ho]

theorem runAttempts_eq_fail_true_zero (out : Nat → AttemptOutcome) (i : Nat)
    (m : String) (ho : out i = .failure true m) :
    runAttempts out 0 i = ⟨[i], [], .failure true m⟩ := by
  rw [runAttempts_zero, ho]

theorem runAttempts_eq_fail_true (out : Nat → AttemptOutcome) (b i : Nat)
    (m : String) (ho : out i = .failure true m) :
    runAttempts out (b + 1) i =
      ⟨i :: (runAttempts out b (i + 1)).calls,
       ⟨.info, retryLogMessage⟩ :: (runAttempts out b (i + 1)).logs,
       (runAttempts out b (i + 1)).final⟩ := by
  rw [runAttempts_succ, ho]

/-- The first attempt index called is always `i` itself. -/
theorem runAttempts_head (out : Nat → AttemptOutcome) (b i : Nat) :
    ∃ tl, (runAttempts out b i).calls = i :: tl := by
  cases ho : out i with
  | success t => exact ⟨[], by rw [runAttempts_eq_success out b i t ho]⟩
  | failure rb m =>
    cases rb with
    | false => exact ⟨[], by rw [runAttempts_eq_fail_false out b i m ho]⟩
    | true =>
      cases b with
      | zero => exact ⟨[], by rw [runAttempts_eq_fail_true_zero out i m ho]⟩
      | succ b =>
        exact ⟨(runAttempts out b (i + 1)).calls,
          by rw [runAttempts_eq_fail_true out b i m ho]⟩

/-- A final success comes from some attempt within the budget. -/
theorem runAttempts_success_source (out : Nat → AttemptOutcome) (b i : Nat)
    (t : String) (h : (runAttempts out b i).final = .success t) :
    ∃ k, k ≤ b ∧ out (i + k) = .success t := by
  induction b generalizing i with
  | zero =>
    cases ho : out i with
    | success t0 =>
      rw [runAttempts_eq_success out 0 i t0 ho] at h
      exact ⟨0, Nat.le_refl 0, by rw [Nat.add_zero, ho]; exact h⟩
    | failure rb m =>
      cases rb with
      | false => rw [runAttempts_eq_fail_false out 0 i m ho] at h; cases h
      | true => rw [runAttempts_eq_fail_true_zero out i m ho] at h; cases h
  | succ b ih =>
    cases ho : out i with
    | success t0 =>
      rw [runAttempts_eq_success out (b + 1) i t0 ho] at h
      exact ⟨0, Nat.zero_le _, by rw [Nat.add_zero, ho]; exact h⟩
    | failure rb m =>
      cases rb with
      | false => rw [runAttempts_eq_fail_false out (b + 1) i m ho] at h; cases h
      | true =>
        rw [runAttempts_eq_fail_true out b i m ho] at h
        obtain ⟨k, hk, hout⟩ := ih (i + 1) h
        refine ⟨k + 1, Nat.succ_le_succ hk, ?_⟩
        rw [show i + (k + 1) = i + 1 + k by omega]
        exact hout

/-- A role that does not succeed and is attempted ends in a failure. -/
theorem runAttempts_failure_of_not_success (out : Nat → AttemptOutcome)
    (b i : Nat) (h : finalIsSuccess (runAttempts out b i).final = false) :
    ∃ rb m, (runAttempts out b i).final = .failure rb m := by
  cases hf : (runAttempts out b i).final with
  | success t => rw [hf] at h; simp [finalIsSuccess] at h
  | failure rb m => exact ⟨rb, m, rfl⟩

/-! ### Step lemmas for the sequencer -/

theorem runSequence_nil (env : Env) (all : List Role) (last : Option String) :
    runSequence env all [] last =
      ⟨.error (exhaustMessage all last), [], [],
        [⟨.error, exhaustLogMessage all⟩]⟩ := rfl

theorem runSequence_noProvider (env : Env) (all : List Role) (r : Role)
    (rest : List Role) (last : Option String) (hp : env.provider r = none) :
    runSequence env all (r :: rest) last =
      ⟨(runSequence env all rest last).outcome,
       (runSequence env all rest last).calls,
       (runSequence env all rest last).keyChecks,
       ⟨.warn, noProviderMessage r⟩ :: (runSequence env all rest last).logs⟩ := by
  simp only [runSequence, hp]

theorem runSequence_skip (env : Env) (all : List Role) (r : Role)
    (rest : List Role) (last : Option String) (p : String)
    (hp : env.provider r = some p) (hreq : requiresCredential p = true)
    (hkey : env.apiKeySet p = false) :
    runSequence env all (r :: rest) last =
      ⟨(runSequence env all rest last).outcome,
       (runSequence env all rest last).calls,
       p :: (runSequence env all rest last).keyChecks,
       ⟨.warn, skipMessage r p⟩ :: (runSequence env all rest last).logs⟩ := by
  simp only [runSequence, hp, hreq, hkey]

theorem runSequence_success_free (env : Env) (all : List Role) (r : Role)
    (rest : List Role) (last : Option String) (p : String) (t : String)
    (hp : env.provider r = some p) (hfree : requiresCredential p = false)
    (hfin : (runAttempts (env.outcomes r) retryBudget 0).final = .success t) :
    runSequence env all (r :: rest) last =
      ⟨.ok (r, t), attemptCalls env r, [],
       ⟨.info, newCallMessage r⟩ :: (runAttempts (env.outcomes r) retryBudget 0).logs⟩ := by
  simp only [runSequence, hp, hfree, hfin, attemptCalls]

theorem runSequence_success_key (env : Env) (all : List Role) (r : Role)
    (rest : List Role) (last : Option String) (p : String) (t : String)
    (hp : env.provider r = some p) (hreq : requiresCredential p = true)
    (hkey : env.apiKeySet p = true)
    (hfin : (runAttempts (env.outcomes r) retryBudget 0).final = .success t) :
    runSequence env all (r :: rest) last =
      ⟨.ok (r, t), attemptCalls env r, [p],
       ⟨.info, newCallMessage r⟩ :: (runAttempts (env.outcomes r) retryBudget 0).logs⟩ := by
  simp only [runSequence, hp, hreq, hkey, hfin, attemptCalls]

theorem runSequence_fail_free (env : Env) (all : List Role) (r : Role)
    (rest : List Role) (last : Option String) (p : String) (rb : Bool) (m : String)
    (hp : env.provider r = some p) (hfree : requiresCredential p = false)
    (hfin : (runAttempts (env.outcomes r) retryBudget 0).final = .failure rb m) :
    runSequence env all (r :: rest) last =
      ⟨(runSequence env all rest (some m)).outcome,
       attemptCalls env r ++ (runSequence env all rest (some m)).calls,
       (runSequence env all rest (some m)).keyChecks,
       ⟨.info, newCallMessage r⟩ :: ((runAttempts (env.outcomes r) retryBudget 0).logs
         ++ (⟨.error, failMessage r m⟩ :: (runSequence env all rest (some m)).logs))⟩ := by
  simp only [runSequence, hp, hfree, hfin, attemptCalls]

theorem runSequence_fail_key (env : Env) (all : List Role) (r : Role)
    (rest : List Role) (last : Option String) (p : String) (rb : Bool) (m : String)
    (hp : env.provider r = some p) (hreq : requiresCredential p = true)
    (hkey : env.apiKeySet p = true)
    (hfin : (runAttempts (env.outcomes r) retryBudget 0).final = .failure rb m) :
    runSequence env all (r :: rest) last =
      ⟨(runSequence env all rest (some m)).outcome,
       attemptCalls env r ++ (runSequence env all rest (some m)).calls,
       p :: (runSequence env all rest (some m)).keyChecks,
       ⟨.info, newCallMessage r⟩ :: ((runAttempts (env.outcomes r) retryBudget 0).logs
         ++ (⟨.error, failMessage r m⟩ :: (runSequence env all rest (some m)).logs))⟩ := by
  simp only [runSequence, hp, hreq, hkey, hfin, attemptCalls]

/-! ### Global facts about the sequencer -/

/-- Every provider whose credential presence was queried is one that
requires a credential: the gate never consults the predicate for a
credential-free provider. -/
theorem runSequence_keyChecks (env : Env) (all rs : List Role) :
    ∀ last, ∀ q ∈ (runSequence env all rs last).keyChecks,
      requiresCredential q = true := by
  induction rs with
  | nil =>
    intro last q hq
    rw [runSequence_nil] at hq
    cases hq
  | cons r rest ih =>
    intro last q hq
    cases hp : env.provider r with
    | none =>
      rw [runSequence_noProvider env all r rest last hp] at hq
      exact ih last q hq
    | some p =>
      cases hreq : requiresCredential p with
      | false =>
        cases hfin : (runAttempts (env.outcomes r) retryBudget 0).final with
        | success t =>
          rw [runSequence_success_free env all r rest last p t hp hreq hfin] at hq
          cases hq
        | failure rb m =>
          rw [runSequence_fail_free env all r rest last p rb m hp hreq hfin] at hq
          exact ih (some m) q hq
      | true =>
        cases hkey : env.apiKeySet p with
        | false =>
          rw [runSequence_skip env all r rest last p hp hreq hkey] at hq
          rcases List.mem_cons.mp hq with rfl | hq
          · exact hreq
          · exact ih last q hq
        | true =>
          cases hfin : (runAttempts (env.outcomes r) retryBudget 0).final with
          | success t =>
            rw [runSequence_success_key env all r rest last p t hp hreq hkey hfin] at hq
            rcases List.mem_cons.mp hq with rfl | hq
            · exact hreq
            · cases hq
          | failure rb m =>
            rw [runSequence_fail_key env all r rest last p rb m hp hreq hkey hfin] at hq
            rcases List.mem_cons.mp hq with rfl | hq
            · exact hreq
            · exact ih (some m) q hq

/-- Every provider call made by the sequencer belongs to a role of the
remaining sequence. -/
theorem runSequence_calls_roles (env : Env) (all rs : List Role) :
    ∀ last, ∀ c ∈ (runSequence env all rs last).calls, c.role ∈ rs := by
  induction rs with
  | nil =>
    intro last c hc
    rw [runSequence_nil] at hc
    cases hc
  | cons r rest ih =>
    intro last c hc
    cases hp : env.provider r with
    | none =>
      rw [runSequence_noProvider env all r rest last hp] at hc
      exact List.mem_cons_of_mem _ (ih last c hc)
    | some p =>
      cases hreq : requiresCredential p with
      | false =>
        cases hfin : (runAttempts (env.outcomes r) retryBudget 0).final with
        | success t =>
          rw [runSequence_success_free env all r rest last p t hp hreq hfin] at hc
          obtain ⟨i, _, rfl⟩ := List.mem_map.mp hc
          exact List.mem_cons_self r rest
        | failure rb m =>
          rw [runSequence_fail_free env all r rest last p rb m hp hreq hfin] at hc
          rcases List.mem_append.mp hc with hc | hc
          · obtain ⟨i, _, rfl⟩ := List.mem_map.mp hc
            exact List.mem_cons_self r rest
          · exact List.mem_cons_of_mem _ (ih (some m) c hc)
      | true =>
        cases hkey : env.apiKeySet p with
        | false =>
          rw [runSequence_skip env all r rest last p hp hreq hkey] at hc
          exact List.mem_cons_of_mem _ (ih last c hc)
        | true =>
          cases hfin : (runAttempts (env.outcomes r) retryBudget 0).final with
          | success t =>
            rw [runSequence_success_key env all r rest last p t hp hreq hkey hfin] at hc
            obtain ⟨i, _, rfl⟩ := List.mem_map.mp hc
            exact List.mem_cons_self r rest
          | failure rb m =>
            rw [runSequence_fail_key env all r rest last p rb m hp hreq hkey hfin] at hc
            rcases List.mem_append.mp hc with hc | hc
            · obtain ⟨i, _, rfl⟩ := List.mem_map.mp hc
              exact List.mem_cons_self r rest
            · exact List.mem_cons_of_mem _ (ih (some m) c hc)

/-- Structure of a cascade pass: some subsequence `tried` of the remaining
role list is attempted, in order and each at most once; the calls are
exactly the attempted roles' attempt blocks in order; and a success comes
from the last attempted role, every attempted role standing no later in
the canonical order, with the returned text produced by one of that role's
attempts within the retry budget. -/
theorem runSequence_shape (env : Env) (all : List Role) :
    ∀ rs : List Role, rs.Pairwise (fun a b => roleIdx a < roleIdx b) →
    ∀ last, ∃ tried : List Role,
      tried.Sublist rs ∧
      (runSequence env all rs last).calls = callsForRoles env tried ∧
      (∀ r t, (runSequence env all rs last).outcome = .ok (r, t) →
        r ∈ tried ∧ (∀ x ∈ tried, roleIdx x ≤ roleIdx r) ∧
        ∃ k, k ≤ retryBudget ∧ env.outcomes r k = .success t) := by
  intro rs
  induction rs with
  | nil =>
    intro _ last
    refine ⟨[], List.nil_sublist _, ?_, ?_⟩
    · rw [runSequence_nil]; rfl
    · intro r t h
      rw [runSequence_nil] at h
      cases h
  | cons r rest ih =>
    intro hpair last
    obtain ⟨hlt, hpair'⟩ := List.pairwise_cons.mp hpair
    cases hp : env.provider r with
    | none =>
      obtain ⟨tried, hsub, hcalls, hok⟩ := ih hpair' last
      refine ⟨tried, hsub.cons r, ?_, ?_⟩
      · rw [runSequence_noProvider env all r rest last hp]; exact hcalls
      · intro r' t h
        rw [runSequence_noProvider env all r rest last hp] at h
        exact hok r' t h
    | some p =>
      cases hreq : requiresCredential p with
      | false =>
        cases hfin : (runAttempts (env.outcomes r) retryBudget 0).final with
        | success t0 =>
          refine ⟨[r], (List.nil_sublist rest).cons₂ r, ?_, ?_⟩
          · rw [runSequence_success_free env all r rest last p t0 hp hreq hfin]
            show attemptCalls env r = attemptCalls env r ++ []
            rw [List.append_nil]
          · intro r' t h
            rw [runSequence_success_free env all r rest last p t0 hp hreq hfin] at h
            obtain ⟨h1, h2⟩ := Prod.mk.injEq .. ▸ Except.ok.inj h
            subst h1
            subst h2
            refine ⟨List.mem_singleton.mpr rfl, ?_, ?_⟩
            · intro x hx
              rw [List.mem_singleton.mp hx]
            · obtain ⟨k, hk, hout⟩ :=
                runAttempts_success_source (env.outcomes r) retryBudget 0 t0 hfin
              exact ⟨k, hk, by rw [← Nat.zero_add k]; exact hout⟩
        | failure rb m =>
          obtain ⟨tried, hsub, hcalls, hok⟩ := ih hpair' (some m)
          refine ⟨r :: tried, hsub.cons₂ r, ?_, ?_⟩
          · rw [runSequence_fail_free env all r rest last p rb m hp hreq hfin]
            show attemptCalls env r ++ _ = attemptCalls env r ++ callsForRoles env tried
            rw [hcalls]
          · intro r' t h
            rw [runSequence_fail_free env all r rest last p rb m hp hreq hfin] at h
            obtain ⟨hmem, hall, hout⟩ := hok r' t h
            refine ⟨List.mem_cons_of_mem _ hmem, ?_, hout⟩
            intro x hx
            rcases List.mem_cons.mp hx with rfl | hx
            · exact Nat.le_of_lt (hlt r' (hsub.subset hmem))
            · exact hall x hx
      | true =>
        cases hkey : env.apiKeySet p with
        | false =>
          obtain ⟨tried, hsub, hcalls, hok⟩ := ih hpair' last
          refine ⟨tried, hsub.cons r, ?_, ?_⟩
          · rw [runSequence_skip env all r rest last p hp hreq hkey]; exact hcalls
          · intro r' t h
            rw [runSequence_skip env all r rest last p hp hreq hkey] at h
            exact hok r' t h
        | true =>
          cases hfin : (runAttempts (env.outcomes r) retryBudget 0).final with
          | success t0 =>
            refine ⟨[r], (List.nil_sublist rest).cons₂ r, ?_, ?_⟩
            · rw [runSequence_success_key env all r rest last p t0 hp hreq hkey hfin]
              show attemptCalls env r = attemptCalls env r ++ []
              rw [List.append_nil]
            · intro r' t h
              rw [runSequence_success_key env all r rest last p t0 hp hreq hkey hfin] at h
              obtain ⟨h1, h2⟩ := Prod.mk.injEq .. ▸ Except.ok.inj h
              subst h1
              subst h2
              refine ⟨List.mem_singleton.mpr rfl, ?_, ?_⟩
              · intro x hx
                rw [List.mem_singleton.mp hx]
              · obtain ⟨k, hk, hout⟩ :=
                  runAttempts_success_source (env.outcomes r) retryBudget 0 t0 hfin
                exact ⟨k, hk, by rw [← Nat.zero_add k]; exact hout⟩
          | failure rb m =>
            obtain ⟨tried, hsub, hcalls, hok⟩ := ih hpair' (some m)
            refine ⟨r :: tried, hsub.cons₂ r, ?_, ?_⟩
            · rw [runSequence_fail_key env all r rest last p rb m hp hreq hkey hfin]
              show attemptCalls env r ++ _ = attemptCalls env r ++ callsForRoles env tried
              rw [hcalls]
            · intro r' t h
              rw [runSequence_fail_key env all r rest last p rb m hp hreq hkey hfin] at h
              obtain ⟨hmem, hall, hout⟩ := hok r' t h
              refine ⟨List.mem_cons_of_mem _ hmem, ?_, hout⟩
              intro x hx
              rcases List.mem_cons.mp hx with rfl | hx
              · exact Nat.le_of_lt (hlt r' (hsub.subset hmem))
              · exact hall x hx

/-- When every remaining role is skipped or fails, the sequencer rejects
with the aggregate message carrying the last underlying failure. -/
theorem runSequence_exhaust (env : Env) (all rs : List Role) :
    ∀ last, (∀ r ∈ rs, roleSucceeds env r = false) →
    (runSequence env all rs last).outcome
      = .error (exhaustMessage all (lastFailure env rs last)) := by
  induction rs with
  | nil =>
    intro last _
    rw [runSequence_nil]
    rfl
  | cons r rest ih =>
    intro last h
    have hr := h r (List.mem_cons_self r rest)
    have h' : ∀ x ∈ rest, roleSucceeds env x = false :=
      fun x hx => h x (List.mem_cons_of_mem _ hx)
    cases hp : env.provider r with
    | none =>
      rw [runSequence_noProvider env all r rest last hp]
      have hrf : roleFinalFailure env r = none := by
        simp [roleFinalFailure, hp]
      rw [show lastFailure env (r :: rest) last = lastFailure env rest last from by
        simp [lastFailure, hrf]]
      exact ih last h'
    | some p =>
      cases hreq : requiresCredential p with
      | false =>
        have hnos : finalIsSuccess (runAttempts (env.outcomes r) retryBudget 0).final
            = false := by
          simp only [roleSucceeds, hp, hreq] at hr
          exact hr
        obtain ⟨rb, m, hfin⟩ :=
          runAttempts_failure_of_not_success (env.outcomes r) retryBudget 0 hnos
        rw [runSequence_fail_free env all r rest last p rb m hp hreq hfin]
        have hrf : roleFinalFailure env r = some m := by
          simp [roleFinalFailure, hp, hreq, hfin]
        rw [show lastFailure env (r :: rest) last = lastFailure env rest (some m) from by
          simp [lastFailure, hrf]]
        exact ih (some m) h'
      | true =>
        cases hkey : env.apiKeySet p with
        | false =>
          rw [runSequence_skip env all r rest last p hp hreq hkey]
          have hrf : roleFinalFailure env r = none := by
            simp [roleFinalFailure, hp, hreq, hkey]
          rw [show lastFailure env (r :: rest) last = lastFailure env rest last from by
            simp [lastFailure, hrf]]
          exact ih last h'
        | true =>
          have hnos : finalIsSuccess (runAttempts (env.outcomes r) retryBudget 0).final
              = false := by
            simp only [roleSucceeds, hp, hreq, hkey] at hr
            exact hr
          obtain ⟨rb, m, hfin⟩ :=
            runAttempts_failure_of_not_success (env.outcomes r) retryBudget 0 hnos
          rw [runSequence_fail_key env all r rest last p rb m hp hreq hkey hfin]
          have hrf : roleFinalFailure env r = some m := by
            simp [roleFinalFailure, hp, hreq, hkey, hfin]
          rw [show lastFailure env (r :: rest) last = lastFailure env rest (some m) from by
            simp [lastFailure, hrf]]
          exact ih (some m) h'

/-- The aggregate message always names the "all configured roles"
failure. -/
theorem exhaustMessage_contains_fixed (rs : List Role) (last : Option String) :
    containsSub (exhaustMessage rs last) "all configured roles" = true := by
  unfold exhaustMessage
  apply containsSub_append_left
  apply containsSub_append_left
  apply containsSub_append_left
  decide

/-- The aggregate message names the attempted role sequence. -/
theorem exhaustMessage_contains_roles (rs : List Role) (last : Option String) :
    containsSub (exhaustMessage rs last) (renderRoles rs) = true := by
  unfold exhaustMessage
  apply containsSub_append_left
  apply containsSub_append_left
  exact containsSub_suffix _ _

/-- The aggregate message carries the final underlying error message. -/
theorem exhaustMessage_contains_last (rs : List Role) (m : String) :
    containsSub (exhaustMessage rs (some m)) m = true := by
  simp only [exhaustMessage]
  rw [← strAppend_assoc]
  exact containsSub_suffix _ _

/-- One retryable failure followed by a success: two calls, the retry log
line, and the retried success as final outcome. -/
theorem runAttempts_retry_success (out : Nat → AttemptOutcome) (m t : String)
    (h0 : out 0 = .failure true m) (h1 : out 1 = .success t) :
    runAttempts out retryBudget 0 =
      ⟨[0, 1], [⟨.info, retryLogMessage⟩], .success t⟩ := by
  have h2 : runAttempts out 0 (0 + 1) = ⟨[0 + 1], [], .success t⟩ :=
    runAttempts_eq_success out 0 (0 + 1) t h1
  rw [show retryBudget = 0 + 1 from rfl,
    runAttempts_eq_fail_true out 0 0 m h0, h2]

/-- A credential-free provider's role, standing first in the remaining
sequence, is always invoked (its attempt-0 call is issued), whatever the
credential predicate would say. -/
theorem runSequence_first_free (env : Env) (all : List Role) (r : Role)
    (rest : List Role) (last : Option String) (p : String)
    (hp : env.provider r = some p) (hfree : requiresCredential p = false) :
    (⟨r, 0⟩ : CallRecord) ∈ (runSequence env all (r :: rest) last).calls := by
  obtain ⟨tl, htl⟩ := runAttempts_head (env.outcomes r) retryBudget 0
  cases hfin : (runAttempts (env.outcomes r) retryBudget 0).final with
  | success t =>
    rw [runSequence_success_free env all r rest last p t hp hfree hfin]
    show (⟨r, 0⟩ : CallRecord) ∈ attemptCalls env r
    rw [attemptCalls, htl, List.map_cons]
    exact List.mem_cons_self _ _
  | failure rb m =>
    rw [runSequence_fail_free env all r rest last p rb m hp hfree hfin]
    show (⟨r, 0⟩ : CallRecord) ∈ attemptCalls env r ++ _
    apply List.mem_append.mpr
    left
    rw [attemptCalls, htl, List.map_cons]
    exact List.mem_cons_self _ _

/-! ## Claims C1–C5: the unified service cascade (spec-modelled) -/

/-- Claim C1: for a "main" request the attempted roles form an in-order
subsequence of the fixed list [main, fallback, research] — so the order is
never reordered and each role is visited at most once per cascade pass —
the provider calls are exactly the attempted roles' attempt blocks in
order, and on success the successful role is the last one attempted (no
role later in the canonical order was tried) with the returned text coming
from one of that role's attempts within the retry budget. -/
theorem claim_C1 (env : Env) :
    ∃ tried : List Role,
      tried.Sublist (roleSequence .main) ∧
      (generateTextService env .main).calls = callsForRoles env tried ∧
      (∀ r t, (generateTextService env .main).outcome = .ok (r, t) →
        r ∈ tried ∧ (∀ x ∈ tried, roleIdx x ≤ roleIdx r) ∧
        ∃ k, k ≤ retryBudget ∧ env.outcomes r k = .success t) :=
  runSequence_shape env (roleSequence .main) (roleSequence .main) (by decide) none

/-- Environment for the C1 witness: main (claude-code) fails fatally,
fallback (anthropic) succeeds, research never reached. -/
def env1 : Env where
  provider := fun r =>
    match r with
    | .main => some "claude-code"
    | .fallback => some "anthropic"
    | .research => some "perplexity"
  apiKeySet := fun _ => true
  outcomes := fun r _ =>
    match r with
    | .main => .failure false "Claude Code failed"
    | .fallback => .success "Fallback provider response"
    | .research => .success "Research provider response"

/-- Witness for C1: concrete cascade falling back from main to fallback. -/
theorem claim_C1_witness :
    (generateTextService env1 .main).outcome
      = .ok (.fallback, "Fallback provider response") ∧
    (∃ tried : List Role,
      tried.Sublist (roleSequence .main) ∧
      (generateTextService env1 .main).calls = callsForRoles env1 tried ∧
      (∀ r t, (generateTextService env1 .main).outcome = .ok (r, t) →
        r ∈ tried ∧ (∀ x ∈ tried, roleIdx x ≤ roleIdx r) ∧
        ∃ k, k ≤ retryBudget ∧ env1.outcomes r k = .success t)) :=
  ⟨by decide, claim_C1 env1⟩

/-- Claim C2: when every role in the cascade is skipped or fails, the
service call rejects with the single aggregate error, whose message
contains the "all configured roles" phrase, names the attempted sequence
[main, fallback, research], and carries the underlying message of the last
failing role. -/
theorem claim_C2 (env : Env)
    (h : ∀ r ∈ roleSequence Role.main, roleSucceeds env r = false) :
    (generateTextService env .main).outcome
      = .error (exhaustMessage (roleSequence .main)
          (lastFailure env (roleSequence .main) none)) ∧
    containsSub (exhaustMessage (roleSequence .main)
        (lastFailure env (roleSequence .main) none)) "all configured roles" = true ∧
    containsSub (exhaustMessage (roleSequence .main)
        (lastFailure env (roleSequence .main) none))
      (renderRoles (roleSequence .main)) = true ∧
    (∀ m, lastFailure env (roleSequence .main) none = some m →
      containsSub (exhaustMessage (roleSequence .main)
          (lastFailure env (roleSequence .main) none)) m = true) := by
  refine ⟨runSequence_exhaust env _ _ none h,
    exhaustMessage_contains_fixed _ _, exhaustMessage_contains_roles _ _, ?_⟩
  intro m hm
  rw [hm]
  exact exhaustMessage_contains_last _ m

/-- Environment for the C2 witness: all three roles fail, each with a
distinct message; the aggregate error must carry the research (last)
message and not the main (first) one. -/
def env2 : Env where
  provider := fun r =>
    match r with
    | .main => some "claude-code"
    | .fallback => some "anthropic"
    | .research => some "perplexity"
  apiKeySet := fun _ => true
  outcomes := fun r _ =>
    match r with
    | .main => .failure false "Claude Code failed"
    | .fallback => .failure false "Anthropic failed"
    | .research => .failure false "Perplexity failed"

/-- Witness for C2: the rejection carries the last role's message, not the
first one. -/
theorem claim_C2_witness :
    ((generateTextService env2 .main).outcome
        = .error (exhaustMessage (roleSequence .main)
            (lastFailure env2 (roleSequence .main) none)) ∧
      containsSub (exhaustMessage (roleSequence .main)
          (lastFailure env2 (roleSequence .main) none)) "all configured roles" = true ∧
      containsSub (exhaustMessage (roleSequence .main)
          (lastFailure env2 (roleSequence .main) none))
        (renderRoles (roleSequence .main)) = true ∧
      (∀ m, lastFailure env2 (roleSequence .main) none = some m →
        containsSub (exhaustMessage (roleSequence .main)
            (lastFailure env2 (roleSequence .main) none)) m = true)) ∧
    lastFailure env2 (roleSequence .main) none = some "Perplexity failed" ∧
    containsSub (exhaustMessage (roleSequence .main)
        (lastFailure env2 (roleSequence .main) none)) "Perplexity failed" = true ∧
    containsSub (exhaustMessage (roleSequence .main)
        (lastFailure env2 (roleSequence .main) none)) "Claude Code failed" = false :=
  ⟨claim_C2 env2 (by decide), by decide, by decide, by decide⟩

/-- Claim C3: a retryable first failure followed by a success on the next
attempt makes the overall call succeed with the retried result, with
exactly two provider invocations (initial attempt plus one retry) and an
info-level "Retryable error detected. Retrying" log line emitted. -/
theorem claim_C3 (env : Env) (p m t : String)
    (hp : env.provider .main = some p)
    (ha : requiresCredential p = false ∨ env.apiKeySet p = true)
    (h0 : env.outcomes .main 0 = .failure true m)
    (h1 : env.outcomes .main 1 = .success t) :
    (generateTextService env .main).outcome = .ok (.main, t) ∧
    (generateTextService env .main).calls = [⟨.main, 0⟩, ⟨.main, 1⟩] ∧
    (⟨.info, retryLogMessage⟩ : LogEntry) ∈ (generateTextService env .main).logs ∧
    containsSub retryLogMessage "Retryable error detected. Retrying" = true := by
  have hra := runAttempts_retry_success (env.outcomes .main) m t h0 h1
  have hfin : (runAttempts (env.outcomes .main) retryBudget 0).final
      = .success t := by rw [hra]
  have hcalls : attemptCalls env .main = [⟨.main, 0⟩, ⟨.main, 1⟩] := by
    rw [attemptCalls, hra]
    rfl
  have hlogs : (runAttempts (env.outcomes .main) retryBudget 0).logs
      = [⟨.info, retryLogMessage⟩] := by rw [hra]
  have hseq : roleSequence Role.main
      = [Role.main, Role.fallback, Role.research] := rfl
  have finish : ∀ ks : List String,
      runSequence env [Role.main, Role.fallback, Role.research]
          [Role.main, Role.fallback, Role.research] none
        = ⟨.ok (.main, t), attemptCalls env .main, ks,
            ⟨.info, newCallMessage .main⟩
              :: (runAttempts (env.outcomes .main) retryBudget 0).logs⟩ →
      (generateTextService env .main).outcome = .ok (.main, t) ∧
      (generateTextService env .main).calls = [⟨.main, 0⟩, ⟨.main, 1⟩] ∧
      (⟨.info, retryLogMessage⟩ : LogEntry) ∈ (generateTextService env .main).logs ∧
      containsSub retryLogMessage "Retryable error detected. Retrying" = true := by
    intro ks hres
    refine ⟨?_, ?_, ?_, by decide⟩
    · unfold generateTextService
      rw [hseq, hres]
    · unfold generateTextService
      rw [hseq, hres]
      exact hcalls
    · unfold generateTextService
      rw [hseq, hres, hlogs]
      exact List.mem_cons_of_mem _ (List.mem_cons_self _ _)
  rcases ha with hfree | hkey
  · exact finish []
      (runSequence_success_free env [Role.main, Role.fallback, Role.research]
        .main [Role.fallback, Role.research] none p t hp hfree hfin)
  · cases hfree : requiresCredential p with
    | false =>
      exact finish []
        (runSequence_success_free env [Role.main, Role.fallback, Role.research]
          .main [Role.fallback, Role.research] none p t hp hfree hfin)
    | true =>
      exact finish [p]
        (runSequence_success_key env [Role.main, Role.fallback, Role.research]
          .main [Role.fallback, Role.research] none p t hp hfree hkey hfin)

/-- Environment for the C3 witness: main (claude-code) rate-limited once,
then succeeding. -/
def env3 : Env where
  provider := fun r =>
    match r with
    | .main => some "claude-code"
    | .fallback => some "anthropic"
    | .research => some "perplexity"
  apiKeySet := fun _ => true
  outcomes := fun r n =>
    match r, n with
    | .main, 0 => .failure true "Rate limit"
    | .main, _ => .success "Success after retry"
    | _, _ => .failure false "unreached"

/-- Witness for C3: the concrete retried run. -/
theorem claim_C3_witness :
    (generateTextService env3 .main).outcome = .ok (.main, "Success after retry") ∧
    (generateTextService env3 .main).calls = [⟨.main, 0⟩, ⟨.main, 1⟩] ∧
    (⟨.info, retryLogMessage⟩ : LogEntry) ∈ (generateTextService env3 .main).logs ∧
    containsSub retryLogMessage "Retryable error detected. Retrying" = true :=
  claim_C3 env3 "claude-code" "Rate limit" "Success after retry"
    rfl (Or.inl (by decide)) rfl rfl

/-- Claim C4: for a credential-free provider the availability gate never
queries the credential-presence predicate (every queried provider is one
requiring a credential, so this provider is never among them), and the
provider is invoked even when the predicate would return false. -/
theorem claim_C4 (env : Env) (r : Role) (p : String)
    (hfree : requiresCredential p = false)
    (hp : env.provider r = some p) :
    (∀ q ∈ (generateTextService env r).keyChecks, requiresCredential q = true) ∧
    p ∉ (generateTextService env r).keyChecks ∧
    (env.apiKeySet p = false →
      (⟨r, 0⟩ : CallRecord) ∈ (generateTextService env r).calls) := by
  have h1 : ∀ q ∈ (generateTextService env r).keyChecks, requiresCredential q = true :=
    runSequence_keyChecks env (roleSequence r) (roleSequence r) none
  refine ⟨h1, ?_, ?_⟩
  · intro hpin
    rw [h1 p hpin] at hfree
    cases hfree
  · intro _
    cases r with
    | main =>
      exact runSequence_first_free env (roleSequence .main) .main
        [.fallback, .research] none p hp hfree
    | fallback =>
      exact runSequence_first_free env (roleSequence .fallback) .fallback
        [.research] none p hp hfree
    | research =>
      exact runSequence_first_free env (roleSequence .research) .research
        [] none p hp hfree

/-- Environment for the C4 witness: the credential predicate answers false
for everything, yet the claude-code main provider is still invoked. -/
def env4 : Env where
  provider := fun r =>
    match r with
    | .main => some "claude-code"
    | .fallback => some "anthropic"
    | .research => some "perplexity"
  apiKeySet := fun _ => false
  outcomes := fun r _ =>
    match r with
    | .main => .success "Claude Code response (no API key required)"
    | _ => .failure false "unreached"

/-- Witness for C4: concrete credential-free run with the predicate
false everywhere. -/
theorem claim_C4_witness :
    (generateTextService env4 .main).outcome
      = .ok (.main, "Claude Code response (no API key required)") ∧
    ((∀ q ∈ (generateTextService env4 .main).keyChecks,
        requiresCredential q = true) ∧
      "claude-code" ∉ (generateTextService env4 .main).keyChecks ∧
      (env4.apiKeySet "claude-code" = false →
        (⟨.main, 0⟩ : CallRecord) ∈ (generateTextService env4 .main).calls)) :=
  ⟨by decide, claim_C4 env4 .main "claude-code" (by decide) rfl⟩

/-- Claim C5: a role whose provider requires a credential that the
predicate reports absent is skipped — no generation call is attempted for
it — with the exact warning naming the role and provider logged, and the
cascade advances to the next role with outcome and calls unchanged. -/
theorem claim_C5 (env : Env) (all : List Role) (r : Role) (rest : List Role)
    (last : Option String) (p : String)
    (hp : env.provider r = some p)
    (hreq : requiresCredential p = true)
    (hkey : env.apiKeySet p = false) :
    (runSequence env all (r :: rest) last).outcome
        = (runSequence env all rest last).outcome ∧
    (runSequence env all (r :: rest) last).calls
        = (runSequence env all rest last).calls ∧
    (runSequence env all (r :: rest) last).logs
        = ⟨.warn, skipMessage r p⟩ :: (runSequence env all rest last).logs ∧
    skipMessage r p = "Skipping role '" ++ roleName r ++ "' (Provider: " ++ p
        ++ "): API key not set or invalid." ∧
    (r ∉ rest → ∀ c ∈ (runSequence env all (r :: rest) last).calls, c.role ≠ r) := by
  have hstep := runSequence_skip env all r rest last p hp hreq hkey
  refine ⟨by rw [hstep], by rw [hstep], by rw [hstep], rfl, ?_⟩
  intro hnr c hc hcr
  rw [hstep] at hc
  exact hnr (hcr ▸ runSequence_calls_roles env all rest last c hc)

/-- Environment for the C5 witness: main provider anthropic with no key;
research (perplexity) has a key and succeeds. -/
def env5 : Env where
  provider := fun r =>
    match r with
    | .main => some "anthropic"
    | .fallback => some "openai"
    | .research => some "perplexity"
  apiKeySet := fun p => p == "perplexity"
  outcomes := fun r _ =>
    match r with
    | .research => .success "Research response after skipping main and fallback"
    | _ => .failure false "unreached"

/-- Witness for C5: the main role is skipped with the exact warning and
the cascade advances. -/
theorem claim_C5_witness :
    (runSequence env5 (roleSequence .main)
          (Role.main :: [Role.fallback, Role.research]) none).outcome
        = (runSequence env5 (roleSequence .main)
            [Role.fallback, Role.research] none).outcome ∧
    (runSequence env5 (roleSequence .main)
          (Role.main :: [Role.fallback, Role.research]) none).calls
        = (runSequence env5 (roleSequence .main)
            [Role.fallback, Role.research] none).calls ∧
    (runSequence env5 (roleSequence .main)
          (Role.main :: [Role.fallback, Role.research]) none).logs
        = ⟨.warn, skipMessage .main "anthropic"⟩
            :: (runSequence env5 (roleSequence .main)
                [Role.fallback, Role.research] none).logs ∧
    skipMessage .main "anthropic"
        = "Skipping role '" ++ roleName .main ++ "' (Provider: " ++ "anthropic"
            ++ "): API key not set or invalid." ∧
    (Role.main ∉ [Role.fallback, Role.research] →
      ∀ c ∈ (runSequence env5 (roleSequence .main)
          (Role.main :: [Role.fallback, Role.research]) none).calls,
        c.role ≠ Role.main) :=
  claim_C5 env5 (roleSequence .main) .main [.fallback, .research] none
    "anthropic" rfl (by decide) (by decide)

end TaskMaster
